import Mathlib

/-!
Verification development for the DelayDaemon input-latency injector
(`src/main.c`).  The C program grabs a Linux input device, computes a
randomized delay for every captured carrier event, re-emits each event on a
virtual uinput device after its delay, and keeps an audit log that is written
on shutdown.  The definitions below are a shallow embedding of the relevant C
functions; randomness (`rand()`, the polar-transform samples used by `randn`)
is abstracted as explicit oracle arguments, and the potentially diverging
rejection loop of the truncated-normal mode is given explicit fuel.
-/

namespace DelayDaemon

/-- Event-type constants from `<linux/input-event-codes.h>` as used by the
program: `EV_SYN = 0`. -/
def EV_SYN : Int := 0

/-- `EV_KEY = 1` (key/button events). -/
def EV_KEY : Int := 1

/-- `EV_REL = 2` (relative-motion events). -/
def EV_REL : Int := 2

/-- `EV_MSC = 4` (miscellaneous events, e.g. `MSC_SCAN`); an event type that is
neither key/button nor relative motion nor a synchronization marker. -/
def EV_MSC : Int := 4

/-- `SYN_REPORT = 0`. -/
def SYN_REPORT : Int := 0

/-- The `distribution` enum of `main.c` (`enum { linear, normal }`). -/
inductive Distribution
  | linear
  | normal
deriving DecidableEq

/-- Truncation toward zero, the semantics of the C cast `(int)` applied to the
`double` result of `randn`.  Rationals stand for the finite `double` values
involved. -/
def ratTrunc (q : ℚ) : Int := if 0 ≤ q then ⌊q⌋ else ⌈q⌉

/-- `randn(mu, sigma)` from `main.c` returns `mu + sigma * X` (as an `int`),
where `X` is the normal sample produced by the polar transform.  `X` is kept
abstract: the theorems below hold for every sample value.  With `sigma = 0`
the IEEE computation `mu + sigma * X` is exact (the product is a signed zero),
so the rational model is faithful there. -/
def randn (mu sigma X : ℚ) : Int := ratTrunc (mu + sigma * X)

/-- The rejection loop of `calculate_delay`'s normal branch:
`int x = -1; while(x < min || x > max) { x = randn(mu, sigma); }`.
`draws k` is the `int` value of the `k`-th call to `randn`; `fuel` bounds the
number of redraws, `none` meaning the loop is still running after `fuel`
redraws. -/
def rejection_loop (lo hi : Int) (draws : Nat → Int) : Nat → Int → Nat → Option Int
  | 0, x, _ => if lo ≤ x ∧ x ≤ hi then some x else none
  | fuel + 1, x, k =>
      if lo ≤ x ∧ x ≤ hi then some x
      else rejection_loop lo hi draws fuel (draws k) (k + 1)

/-- `calculate_delay(min, max)` from `main.c`.  `r` is the value returned by
`rand()` in the linear branch (always nonnegative, so Lean's `%` on a `Nat`
cast coincides with C's `%` here); `draws` are the successive `(int)` results
of `randn` consumed by the normal branch; `fuel` bounds that branch's
rejection loop. -/
def calculate_delay (dist : Distribution) (lo hi : Int) (r : Nat)
    (draws : Nat → Int) (fuel : Nat) : Option Int :=
  if lo = hi then some lo
  else
    match dist with
    | .linear => some (lo + (r : Int) % (hi - lo))
    | .normal => rejection_loop lo hi draws fuel (-1) 0

/-- If every redraw misses `[lo, hi]` and the current value misses it too, the
rejection loop never produces a result, whatever the fuel. -/
theorem rejection_loop_none (lo hi : Int) (draws : Nat → Int)
    (hdraws : ∀ k, draws k < lo ∨ hi < draws k) :
    ∀ (fuel : Nat) (x : Int) (k : Nat), (x < lo ∨ hi < x) →
      rejection_loop lo hi draws fuel x k = none := by
  intro fuel
  induction fuel with
  | zero =>
      intro x k hx
      have : ¬ (lo ≤ x ∧ x ≤ hi) := by omega
      simp [rejection_loop, this]
  | succ f ih =>
      intro x k hx
      have : ¬ (lo ≤ x ∧ x ≤ hi) := by omega
      rw [rejection_loop, if_neg this]
      exact ih (draws k) (k + 1) (hdraws k)

/-- Any value the rejection loop does return lies within `[lo, hi]`. -/
theorem rejection_loop_mem (lo hi : Int) (draws : Nat → Int) :
    ∀ (fuel : Nat) (x : Int) (k : Nat) (y : Int),
      rejection_loop lo hi draws fuel x k = some y → lo ≤ y ∧ y ≤ hi := by
  intro fuel
  induction fuel with
  | zero =>
      intro x k y h
      by_cases hx : lo ≤ x ∧ x ≤ hi
      · rw [rejection_loop, if_pos hx] at h
        cases h
        exact hx
      · rw [rejection_loop, if_neg hx] at h
        cases h
  | succ f ih =>
      intro x k y h
      by_cases hx : lo ≤ x ∧ x ≤ hi
      · rw [rejection_loop, if_pos hx] at h
        cases h
        exact hx
      · rw [rejection_loop, if_neg hx] at h
        exact ih (draws k) (k + 1) y h

/-- Claim C6: whenever the configured range has `min == max`, `calculate_delay`
returns exactly that constant, for every distribution kind, every random value
and every fuel — the first line `if(min == max) return min;` fires before any
randomness is consulted. -/
theorem calculate_delay_const (dist : Distribution) (lo hi : Int) (r : Nat)
    (draws : Nat → Int) (fuel : Nat) (h : lo = hi) :
    calculate_delay dist lo hi r draws fuel = some lo := by
  subst h
  simp [calculate_delay]

/-- Witness for C6 at a concrete input: range `[42, 42]`, normal mode. -/
theorem calculate_delay_const_witness :
    (42 : Int) = 42 ∧
      calculate_delay .normal 42 42 7 (fun _ => 0) 0 = some 42 :=
  ⟨rfl, calculate_delay_const .normal 42 42 7 (fun _ => 0) 0 rfl⟩

/-- Claim C7: in uniform (linear) mode with `min < max`, the returned delay
`min + rand() % (max - min)` always lies in the half-open interval
`[min, max)`, for every state of the pseudo-random generator. -/
theorem calculate_delay_uniform_range (lo hi : Int) (r : Nat)
    (draws : Nat → Int) (fuel : Nat) (h : lo < hi) :
    ∃ d, calculate_delay .linear lo hi r draws fuel = some d ∧
      lo ≤ d ∧ d < hi := by
  refine ⟨lo + (r : Int) % (hi - lo), ?_, ?_, ?_⟩
  · rw [calculate_delay, if_neg (by omega)]
  · have h0 : (0 : Int) ≤ (r : Int) % (hi - lo) :=
      Int.emod_nonneg _ (by omega)
    omega
  · have h1 : (r : Int) % (hi - lo) < hi - lo :=
      Int.emod_lt_of_pos _ (by omega)
    omega

/-- Witness for C7 at a concrete input: range `[2, 7)`, `rand() = 12`. -/
theorem calculate_delay_uniform_range_witness :
    (2 : Int) < 7 ∧
      ∃ d, calculate_delay .linear 2 7 12 (fun _ => 0) 0 = some d ∧
        2 ≤ d ∧ d < 7 :=
  ⟨by decide, calculate_delay_uniform_range 2 7 12 (fun _ => 0) 0 (by decide)⟩

/-- Counterexample to claim C8 as stated: with the finite configuration
`mu = 1000`, `sigma = 0` and the range `[5, 10]`, every call to `randn`
returns exactly `1000` (whatever the polar sample), so the rejection loop
never terminates: no amount of fuel yields a result.  The startup validation
only forces `mu` into the click range, so the move range can be arbitrarily
far from `mu`. -/
theorem truncated_normal_nontermination :
    (∀ X : ℚ, randn 1000 0 X = 1000) ∧
      ¬ ∃ (fuel : Nat) (x : Int),
        calculate_delay .normal 5 10 0 (fun _ => 1000) fuel = some x := by
  constructor
  · intro X
    simp [randn, ratTrunc]
  · rintro ⟨fuel, x, hx⟩
    rw [calculate_delay, if_neg (by decide)] at hx
    rw [rejection_loop_none 5 10 (fun _ => 1000) (fun _ => by norm_num)
      fuel (-1) 0 (by norm_num)] at hx
    cases hx

/-- Claim C8 amended: whenever the truncated-normal computation terminates, the
returned value lies within the closed interval `[min, max]`; termination
itself is not guaranteed for every finite mean/std (see the counterexample). -/
theorem truncated_normal_in_range (lo hi : Int) (r : Nat)
    (draws : Nat → Int) (fuel : Nat) (x : Int)
    (h : calculate_delay .normal lo hi r draws fuel = some x) :
    lo ≤ x ∧ x ≤ hi := by
  by_cases hlh : lo = hi
  · rw [calculate_delay, if_pos hlh] at h
    cases h
    omega
  · rw [calculate_delay, if_neg hlh] at h
    exact rejection_loop_mem lo hi draws fuel (-1) 0 x h

/-- Witness for the amended C8 at a concrete input: range `[5, 10]`, draws all
equal to `7`, terminating after one redraw with result `7 ∈ [5, 10]`. -/
theorem truncated_normal_in_range_witness :
    calculate_delay .normal 5 10 0 (fun _ => 7) 1 = some 7 ∧
      (5 : Int) ≤ 7 ∧ (7 : Int) ≤ 10 :=
  ⟨by decide, truncated_normal_in_range 5 10 0 (fun _ => 7) 1 7 (by decide)⟩

/-! ### Config channel (`handle_fifo`, `init_fifo`, the `argv[7]` check) -/

/-- The four delay globals of `main.c`
(`min_delay_click`, `max_delay_click`, `min_delay_move`, `max_delay_move`). -/
structure DelayTimes where
  min_delay_click : Int
  max_delay_click : Int
  min_delay_move : Int
  max_delay_move : Int
deriving DecidableEq

/-- The whitespace characters skipped by `sscanf`'s `%d` conversion
(C `isspace` in the default locale). -/
def isCSpace (c : Char) : Bool :=
  c = ' ' || c = '\t' || c = '\n' || c = '\r' || c = '\x0b' || c = '\x0c'

/-- Numeric value of a decimal digit string. -/
def natFromDigits (ds : List Char) : Nat :=
  ds.foldl (fun a c => a * 10 + (c.toNat - 48)) 0

/-- One `%d` conversion of `sscanf`: skip whitespace, optional sign, a maximal
nonempty run of decimal digits; `none` on matching failure.  Returns the value
and the unconsumed rest of the input. -/
def parseDec (s : List Char) : Option (Int × List Char) :=
  match s.dropWhile isCSpace with
  | '-' :: rest =>
      let ds := rest.takeWhile Char.isDigit
      if ds.isEmpty then none
      else some (-(natFromDigits ds : Int), rest.dropWhile Char.isDigit)
  | '+' :: rest =>
      let ds := rest.takeWhile Char.isDigit
      if ds.isEmpty then none
      else some ((natFromDigits ds : Int), rest.dropWhile Char.isDigit)
  | other =>
      let ds := other.takeWhile Char.isDigit
      if ds.isEmpty then none
      else some ((natFromDigits ds : Int), other.dropWhile Char.isDigit)

/-- Four consecutive `%d` conversions; also returns the unconsumed rest. -/
def parse4 (s : List Char) : Option ((Int × Int × Int × Int) × List Char) :=
  match parseDec s with
  | none => none
  | some (a, s1) =>
    match parseDec s1 with
    | none => none
    | some (b, s2) =>
      match parseDec s2 with
      | none => none
      | some (m, s3) =>
        match parseDec s3 with
        | none => none
        | some (n, s4) => some ((a, b, m, n), s4)

/-- `sscanf(buffer, "%d %d %d %d", ...) == 4`: the first four conversions all
succeed; whatever follows them in the message is ignored. -/
def sscanf_four (s : List Char) : Option (Int × Int × Int × Int) :=
  (parse4 s).map (·.1)

/-- Modelled from the spec's words, for comparison with `sscanf_four`: the
message "parses as exactly four whitespace-separated integers" — four integer
tokens and nothing but whitespace after them. -/
def specExactlyFourInts (s : List Char) : Option (Int × Int × Int × Int) :=
  match parse4 s with
  | some (v, rest) => if rest.all isCSpace then some v else none
  | none => none

/-- Result of one iteration of the `handle_fifo` service loop after a message
was read from the FIFO. -/
structure FifoIterResult where
  cfg : DelayTimes
  accepted : Bool
  loggedRejection : Bool
  continues : Bool
deriving DecidableEq

/-- One iteration of `handle_fifo` (`main.c` lines 288–317) on a received
message: if `sscanf` assigns all four integers, the four globals are set and
each `max` is clamped up to its `min`; otherwise the globals are untouched and
the rejection is printed.  Either way the `while(1)` loop continues waiting. -/
def handle_fifo_iter (c : DelayTimes) (msg : List Char) : FifoIterResult :=
  match sscanf_four msg with
  | some (a, b, m, n) =>
      let c1 : DelayTimes := ⟨a, b, m, n⟩
      let c2 := if c1.max_delay_click < c1.min_delay_click then
          { c1 with max_delay_click := c1.min_delay_click } else c1
      let c3 := if c2.max_delay_move < c2.min_delay_move then
          { c2 with max_delay_move := c2.min_delay_move } else c2
      ⟨c3, true, false, true⟩
  | none => ⟨c, false, true, true⟩

/-- Counterexample to claim C5 as stated: the message `"1 2 3 4 5"` does not
parse as *exactly* four whitespace-separated integers (a fifth one follows),
yet `sscanf` still assigns four values and the configuration is replaced —
the prior configuration does not remain unchanged. -/
theorem extra_integers_accepted :
    specExactlyFourInts ("1 2 3 4 5".data) = none ∧
      (handle_fifo_iter ⟨0, 0, 0, 0⟩ ("1 2 3 4 5".data)).cfg ≠ ⟨0, 0, 0, 0⟩ ∧
      (handle_fifo_iter ⟨0, 0, 0, 0⟩ ("1 2 3 4 5".data)).cfg = ⟨1, 2, 3, 4⟩ := by
  refine ⟨by decide, by decide, by decide⟩

/-- Claim C5 amended: if the *first four* whitespace-separated tokens of the
message parse as integers (anything after them is ignored), the configuration
is replaced by those values with each range's max clamped up to its min;
if fewer than four integers can be parsed, the configuration is unchanged, the
rejection is logged, and the listener keeps waiting for the next message. -/
theorem handle_fifo_iter_spec (c : DelayTimes) (msg : List Char) :
    (∀ a b m n, sscanf_four msg = some (a, b, m, n) →
        handle_fifo_iter c msg = ⟨⟨a, max a b, m, max m n⟩, true, false, true⟩) ∧
      (sscanf_four msg = none →
        handle_fifo_iter c msg = ⟨c, false, true, true⟩) := by
  constructor
  · intro a b m n h
    rw [handle_fifo_iter, h]
    have hb : (if b < a then a else b) = max a b := by
      rcases le_or_lt a b with hab | hab
      · rw [if_neg (by omega), max_eq_right hab]
      · rw [if_pos hab, max_eq_left (by omega)]
    have hn : (if n < m then m else n) = max m n := by
      rcases le_or_lt m n with hmn | hmn
      · rw [if_neg (by omega), max_eq_right hmn]
      · rw [if_pos hmn, max_eq_left (by omega)]
    by_cases h1 : b < a
    · by_cases h2 : n < m <;>
        simp only [h1, h2, if_pos, if_neg, ite_true, ite_false] <;>
        rw [← hb, ← hn] <;> simp [h1, h2]
    · by_cases h2 : n < m <;>
        simp only [h1, h2, ite_true, ite_false] <;>
        rw [← hb, ← hn] <;> simp [h1, h2]
  · intro h
    rw [handle_fifo_iter, h]

/-- Witness for the amended C5 at a concrete input: message `"7 3 2 9"` with
`max_click < min_click`, so the click range is clamped to `[7, 7]`. -/
theorem handle_fifo_iter_spec_witness :
    sscanf_four ("7 3 2 9".data) = some (7, 3, 2, 9) ∧
      handle_fifo_iter ⟨0, 0, 0, 0⟩ ("7 3 2 9".data) =
        ⟨⟨7, max 7 3, 2, max 2 9⟩, true, false, true⟩ :=
  ⟨by decide,
    (handle_fifo_iter_spec ⟨0, 0, 0, 0⟩ ("7 3 2 9".data)).1 7 3 2 9 (by decide)⟩

/-! #### Atomicity of the replacement (C4)

`handle_fifo` installs an accepted configuration by six successive stores to
the four global variables (four assignments, then the two clamp fixups), with
no lock or atomic exchange; the capture loop reads those globals concurrently
when it computes a delay.  Each store is modelled as one step, and a reader
may observe the globals between any two steps. -/

/-- The successive global-variable stores performed by `handle_fifo` when a
message with values `b1 b2 b3 b4` is accepted (`main.c` lines 300–307). -/
def fifo_write_steps (b1 b2 b3 b4 : Int) : List (DelayTimes → DelayTimes) :=
  [fun c => { c with min_delay_click := b1 },
   fun c => { c with max_delay_click := b2 },
   fun c => { c with min_delay_move := b3 },
   fun c => { c with max_delay_move := b4 },
   fun c => if c.max_delay_click < c.min_delay_click then
       { c with max_delay_click := c.min_delay_click } else c,
   fun c => if c.max_delay_move < c.min_delay_move then
       { c with max_delay_move := c.min_delay_move } else c]

/-- The configuration a concurrent reader observes after the writer has
executed the first `k` of the six stores. -/
def observe_after (old : DelayTimes) (b1 b2 b3 b4 : Int) (k : Nat) : DelayTimes :=
  ((fifo_write_steps b1 b2 b3 b4).take k).foldl (fun c f => f c) old

/-- Counterexample to claim C4 as stated: replacing `⟨0,0,0,0⟩` by
`10 20 30 40`, a reader scheduled between the first and second store observes
`⟨10,0,0,0⟩` — the new `min_delay_click` together with the old
`max_delay_click` — which is neither the old nor the new configuration. -/
theorem torn_config_read :
    observe_after ⟨0, 0, 0, 0⟩ 10 20 30 40 1 = ⟨10, 0, 0, 0⟩ ∧
      observe_after ⟨0, 0, 0, 0⟩ 10 20 30 40 1 ≠ ⟨0, 0, 0, 0⟩ ∧
      observe_after ⟨0, 0, 0, 0⟩ 10 20 30 40 6 = ⟨10, 20, 30, 40⟩ ∧
      observe_after ⟨0, 0, 0, 0⟩ 10 20 30 40 1 ≠
        observe_after ⟨0, 0, 0, 0⟩ 10 20 30 40 6 := by
  refine ⟨by decide, by decide, by decide, by decide⟩

/-- Claim C4 amended: the replacement is *not* atomic — it is a sequence of
unsynchronized stores, and a reader running after the first store observes a
mixed configuration: the incoming `min_delay_click` combined with the old
values of the other three fields, distinct from both the old and the fully
written configuration whenever those fields actually change. -/
theorem config_write_interleaving (old : DelayTimes) (b1 b2 b3 b4 : Int)
    (h1 : b1 ≠ old.min_delay_click)
    (h2 : old.max_delay_click ≠ (observe_after old b1 b2 b3 b4 6).max_delay_click) :
    observe_after old b1 b2 b3 b4 1 =
        { old with min_delay_click := b1 } ∧
      (observe_after old b1 b2 b3 b4 6).min_delay_click = b1 ∧
      observe_after old b1 b2 b3 b4 1 ≠ old ∧
      observe_after old b1 b2 b3 b4 1 ≠ observe_after old b1 b2 b3 b4 6 := by
  have hobs : observe_after old b1 b2 b3 b4 1 =
      { old with min_delay_click := b1 } := rfl
  have hfin : (observe_after old b1 b2 b3 b4 6).min_delay_click = b1 := by
    show (let c4 : DelayTimes := ⟨b1, b2, b3, b4⟩
      let c5 := if c4.max_delay_click < c4.min_delay_click then
          { c4 with max_delay_click := c4.min_delay_click } else c4
      let c6 := if c5.max_delay_move < c5.min_delay_move then
          { c5 with max_delay_move := c5.min_delay_move } else c5
      c6).min_delay_click = b1
    dsimp only
    by_cases hc : b2 < b1 <;> by_cases hm : b4 < b3 <;> simp [hc, hm]
  refine ⟨hobs, hfin, ?_, ?_⟩
  · intro hEq
    have : ({ old with min_delay_click := b1 } : DelayTimes).min_delay_click =
        old.min_delay_click := by rw [← hobs, hEq]
    exact h1 this
  · intro hEq
    have : ({ old with min_delay_click := b1 } : DelayTimes).max_delay_click =
        (observe_after old b1 b2 b3 b4 6).max_delay_click := by
      rw [← hobs, hEq]
    exact h2 this

/-- Witness for the amended C4 at a concrete input. -/
theorem config_write_interleaving_witness :
    (10 : Int) ≠ (0 : Int) ∧
      (0 : Int) ≠ (observe_after ⟨0, 0, 0, 0⟩ 10 20 30 40 6).max_delay_click ∧
      (observe_after ⟨0, 0, 0, 0⟩ 10 20 30 40 1 =
          { min_delay_click := 10, max_delay_click := 0,
            min_delay_move := 0, max_delay_move := 0 } ∧
        (observe_after ⟨0, 0, 0, 0⟩ 10 20 30 40 6).min_delay_click = 10 ∧
        observe_after ⟨0, 0, 0, 0⟩ 10 20 30 40 1 ≠ ⟨0, 0, 0, 0⟩ ∧
        observe_after ⟨0, 0, 0, 0⟩ 10 20 30 40 1 ≠
          observe_after ⟨0, 0, 0, 0⟩ 10 20 30 40 6) :=
  ⟨by decide, by decide,
    config_write_interleaving ⟨0, 0, 0, 0⟩ 10 20 30 40 (by decide) (by decide)⟩

/-! #### FIFO setup and the "none" sentinel (C3) -/

/-- What `init_fifo` does when called with a path: unlink any stale FIFO,
create the FIFO at `fifo_path`, and spawn the persistent `handle_fifo`
listener thread (`main.c` lines 323–333). -/
structure FifoSetup where
  unlinked : Bool
  created_at : String
  listener_spawned : Bool
deriving DecidableEq

/-- `init_fifo` (`main.c` lines 323–333), modelled as the resources it sets up
at the given path. -/
def init_fifo (fifo_path : String) : FifoSetup :=
  ⟨true, fifo_path, true⟩

/-- The `argv[7]` handling in `main` (`main.c` lines 535–542):
`if(argc > 7) { if(!strcmp(argv[7], "none")) { fifo_path = argv[7]; init_fifo(); } }`.
Since `strcmp` returns `0` on equality, `!strcmp(argv[7], "none")` is true
exactly when the argument *is* the sentinel `"none"`.  Returns the FIFO setup
performed, `none` when no reconfiguration channel is created. -/
def main_fifo_setup (args : List String) : Option FifoSetup :=
  if 7 < args.length then
    if args.getD 7 "" = "none" then some (init_fifo (args.getD 7 ""))
    else none
  else none

/-- Claim C3 evaluated on the code: the sentinel check is inverted.  Passing
the sentinel `"none"` *creates* the FIFO (at the literal path `"none"`) and
spawns the listener, while passing a real FIFO path creates nothing, leaving
the configuration immutable exactly when the user asked for the live channel. -/
theorem fifo_sentinel_inverted :
    main_fifo_setup
        ["./delay_daemon", "/dev/input/event5", "50", "50", "0", "0", "l",
          "none"] = some ⟨true, "none", true⟩ ∧
      main_fifo_setup
        ["./delay_daemon", "/dev/input/event5", "50", "50", "0", "0", "l",
          "/tmp/delay_fifo"] = none := by
  refine ⟨by decide, by decide⟩

/-! ### Audit log (`write_event_log`, C9) -/

/-- The `delayed_event` struct of `main.c` with the fields printed by
`write_event_log` (`fd` is carried along as in the C struct; it is not
logged). -/
structure delayed_event where
  fd : Int
  type : Int
  code : Int
  value : Int
  delay : Int
  timestamp : Nat
deriving DecidableEq

/-- Decimal digits of `n`, most significant first — the text produced by
`fprintf`'s `%lu` for a nonnegative value. -/
def natChars (n : Nat) : List Char :=
  if _h : n < 10 then [Nat.digitChar n]
  else natChars (n / 10) ++ [Nat.digitChar (n % 10)]
termination_by n
decreasing_by exact Nat.div_lt_self (by omega) (by omega)

/-- The text produced by `fprintf`'s `%li` / `%i`: a minus sign for negative
values, then the decimal digits of the absolute value. -/
def intChars (i : Int) : List Char :=
  if i < 0 then '-' :: natChars i.natAbs else natChars i.natAbs

/-- The header line written the first time `event_log.csv` is created. -/
def header : List Char :=
  ['t', 'i', 'm', 'e', 's', 't', 'a', 'm', 'p', ';', 'd', 'e', 'l', 'a', 'y',
   ';', 't', 'y', 'p', 'e', ';', 'v', 'a', 'l', 'u', 'e', ';', 'c', 'o', 'd',
   'e']

/-- One data line of the log: `fprintf(file, "%lu;%li;%i;%i;%i\n", timestamp,
delay, type, value, code)`. -/
def formatLine (e : delayed_event) : List Char :=
  natChars e.timestamp ++ ';' :: intChars e.delay ++ ';' :: intChars e.type ++
    ';' :: intChars e.value ++ ';' :: intChars e.code

/-- `write_event_log` (`main.c` lines 113–138), on the file modelled as its
list of lines: if the file does not yet exist it is created holding just the
header; then every buffered event is appended as one formatted line, in buffer
order, and `free_vector` empties the buffer.  Returns the new file content and
the new buffer. -/
def write_event_log (fileExisted : Bool) (oldContent : List (List Char))
    (buf : List delayed_event) : List (List Char) × List delayed_event :=
  ((if fileExisted then oldContent else [header]) ++ buf.map formatLine, [])

theorem digitChar_isDigit_of_lt (d : Nat) (h : d < 10) :
    (Nat.digitChar d).isDigit = true := by
  have hall : ∀ x : Fin 10, (Nat.digitChar x.1).isDigit = true := by decide
  exact hall ⟨d, h⟩

/-- `natChars` always starts with a decimal digit. -/
theorem natChars_head (n : Nat) :
    ∃ d l, natChars n = d :: l ∧ d.isDigit = true := by
  induction n using Nat.strong_induction_on with
  | _ n ih =>
    rw [natChars]
    by_cases h : n < 10
    · exact ⟨Nat.digitChar n, [], by simp [h], digitChar_isDigit_of_lt n h⟩
    · obtain ⟨d, l, hd, hdig⟩ :=
        ih (n / 10) (Nat.div_lt_self (by omega) (by omega))
      exact ⟨d, l ++ [Nat.digitChar (n % 10)], by simp [h, hd], hdig⟩

/-- No data line can collide with the header: a data line starts with a digit,
the header starts with `'t'`. -/
theorem formatLine_ne_header (e : delayed_event) : formatLine e ≠ header := by
  obtain ⟨d, l, hd, hdig⟩ := natChars_head e.timestamp
  intro hEq
  rw [formatLine, hd, List.cons_append] at hEq
  have hdt : d = 't' := (List.cons.injEq _ _ _ _ ▸ hEq).1
  rw [hdt] at hdig
  exact absurd hdig (by decide)

/-- Claim C9: flushing a buffer of `N` events appends exactly `N` data lines
to the file, in insertion order, the `i`-th line being the semicolon-joined
`timestamp;delay;type;value;code` rendering of the `i`-th buffered event; the
header is present exactly once when the file is freshly created and is never
written again to an existing file; and the buffer is empty afterwards. -/
theorem write_event_log_spec (fileExisted : Bool)
    (oldContent : List (List Char)) (buf : List delayed_event) :
    (write_event_log fileExisted oldContent buf).2 = [] ∧
      (write_event_log fileExisted oldContent buf).1 =
        (if fileExisted then oldContent else [header]) ++ buf.map formatLine ∧
      (buf.map formatLine).length = buf.length ∧
      (∀ i : Nat, (buf.map formatLine).get? i = (buf.get? i).map formatLine) ∧
      List.count header (write_event_log fileExisted oldContent buf).1 =
        (if fileExisted then List.count header oldContent else 1) := by
  have hnotmem : header ∉ buf.map formatLine := by
    intro hmem
    obtain ⟨e, _, he⟩ := List.mem_map.mp hmem
    exact formatLine_ne_header e he
  have hzero : List.count header (buf.map formatLine) = 0 :=
    List.count_eq_zero.mpr hnotmem
  refine ⟨rfl, rfl, List.length_map _ _, fun i => by simp, ?_⟩
  cases fileExisted with
  | false =>
      show List.count header ([header] ++ buf.map formatLine) = 1
      rw [List.count_append, hzero]
      simp
  | true =>
      show List.count header (oldContent ++ buf.map formatLine) =
        List.count header oldContent
      rw [List.count_append, hzero]
      omega

/-! ### Capture loop, device disconnection, scheduling (C1, C2, C10) -/

/-- What one call to `get_event` can yield once libevdev's dropped-SYN
resynchronization (handled inside `get_event`, logged as a warning) has run:
either a successfully read raw event, or `-ENODEV` because the source device
disconnected. -/
inductive capture_outcome
  | deviceGone
  | event (etype ecode evalue : Int) (tsec tusec : Nat)
deriving DecidableEq

/-- The return value of `get_event` (`main.c` lines 250–278): `-1` when
`libevdev_next_event` reported `-ENODEV` (after printing "Device
disconnected"), `1` otherwise. -/
def get_event : capture_outcome → Int
  | .deviceGone => -1
  | .event _ _ _ _ _ => 1

/-- The guard under which `main` spawns a delayed-event thread:
`err > -1 && inputEvent.type != EV_SYN` (`main.c` line 603). -/
def schedules_thread (err etype : Int) : Bool :=
  decide (err > -1) && decide (etype ≠ EV_SYN)

/-- The value `main` stores into `event->delay`: the `calculate_delay` result
for the click range on `EV_KEY`, for the move range on `EV_REL` — and for any
other event type *no* store at all (`main.c` lines 612–613 have no `else`
branch), leaving the `malloc`ed field uninitialized, modelled as `none`.
`dClick`/`dMove` stand for the values `calculate_delay` returns at this
iteration. -/
def assign_delay (etype dClick dMove : Int) : Option Int :=
  if etype = EV_KEY then some dClick
  else if etype = EV_REL then some dMove
  else none

/-- A scheduled event as built by the capture loop; `delay = none` models the
field never being written. -/
structure sched_event where
  type : Int
  code : Int
  value : Int
  delay : Option Int
  timestamp : Nat
deriving DecidableEq

/-- Observable state of a run of `main`'s capture loop: the audit buffer `ev`
(appended to in scheduling order), whether `write_event_log` has run, and the
process exit status if the process has exited. -/
structure run_state where
  buffer : List sched_event
  logFlushed : Bool
  exited : Option Int
deriving DecidableEq

/-- The body of the capture loop (`main.c` lines 602–620) on one capture
outcome: when `err > -1` and the type is not `EV_SYN`, a thread is spawned for
the event and it is appended to the audit buffer; otherwise — in particular on
device disconnection — nothing happens and control returns to the loop head. -/
def loop_body (dClick dMove : Int) (st : run_state) :
    capture_outcome → run_state
  | .deviceGone => st
  | .event t c v ts tus =>
      if schedules_thread (get_event (.event t c v ts tus)) t then
        { st with buffer := st.buffer ++
            [⟨t, c, v, assign_delay t dClick dMove, ts * 1000 + tus / 1000⟩] }
      else st

/-- A finite prefix of the capture loop
`while(err = read(fd_rtc, NULL, sizeof(unsigned long))) { ... }`:
each trace element is the RTC read result followed by the capture outcome of
that iteration.  Only an RTC read of `0` leaves the loop (falling through to
`return 0` — without flushing); no capture outcome does. -/
def run_loop (dClick dMove : Int) :
    run_state → List (Int × capture_outcome) → run_state
  | st, [] => st
  | st, (rtc, out) :: rest =>
      if rtc = 0 then { st with exited := some 0 }
      else run_loop dClick dMove (loop_body dClick dMove st out) rest

/-- The initial state of a run: empty buffer, nothing flushed, still running. -/
def st0 : run_state := ⟨[], false, none⟩

/-- The capture loop never flushes the audit log: only the `SIGINT` handler
`onExit` calls `write_event_log`. -/
theorem run_loop_logFlushed (dClick dMove : Int) :
    ∀ (trace : List (Int × capture_outcome)) (st : run_state),
      (run_loop dClick dMove st trace).logFlushed = st.logFlushed := by
  intro trace
  induction trace with
  | nil => intro st; rfl
  | cons p rest ih =>
      intro st
      obtain ⟨rtc, out⟩ := p
      rw [run_loop]
      by_cases h : rtc = 0
      · rw [if_pos h]
      · rw [if_neg h, ih]
        cases out with
        | deviceGone => rfl
        | event t c v ts tus =>
            rw [loop_body]
            by_cases hs : schedules_thread (get_event (.event t c v ts tus)) t
            · rw [if_pos hs]
            · rw [if_neg hs]

/-- Counterexample to claim C1 as stated: after the source device disconnects
(`get_event` returns `-1`), the process has not exited (no status `0`), the
log is not flushed, and the capture loop is still running — a key event
arriving on the next iteration is still scheduled.  The loop does not
terminate and no shutdown path runs. -/
theorem device_gone_no_shutdown :
    (run_loop 50 60 st0 [(1, .deviceGone)]).exited = none ∧
      (run_loop 50 60 st0 [(1, .deviceGone)]).logFlushed = false ∧
      (run_loop 50 60 st0 [(1, .deviceGone), (1, .event 1 30 1 7 0)]).buffer =
        [⟨1, 30, 1, some 50, 7000⟩] := by
  refine ⟨by decide, by decide, by decide⟩

/-- Claim C1 amended: a device-disconnection outcome is a no-op for the
capture loop — the iteration schedules nothing and the loop continues with the
remaining iterations unchanged — and no point of the loop ever flushes the
audit log; the flush/teardown/exit-0 path exists only in the `SIGINT`
handler. -/
theorem device_gone_skipped (dClick dMove rtc : Int) (st : run_state)
    (rest : List (Int × capture_outcome)) (h : rtc ≠ 0) :
    run_loop dClick dMove st ((rtc, .deviceGone) :: rest) =
        run_loop dClick dMove st rest ∧
      (run_loop dClick dMove st ((rtc, .deviceGone) :: rest)).logFlushed =
        st.logFlushed := by
  have hstep : run_loop dClick dMove st ((rtc, .deviceGone) :: rest) =
      run_loop dClick dMove st rest := by
    rw [run_loop, if_neg h]
    rfl
  exact ⟨hstep, by rw [hstep, run_loop_logFlushed]⟩

/-- Witness for the amended C1 at a concrete input. -/
theorem device_gone_skipped_witness :
    (1 : Int) ≠ 0 ∧
      (run_loop 50 60 st0 [((1 : Int), .deviceGone)] = run_loop 50 60 st0 [] ∧
        (run_loop 50 60 st0 [((1 : Int), .deviceGone)]).logFlushed =
          st0.logFlushed) :=
  ⟨by decide, device_gone_skipped 50 60 1 st0 [] (by decide)⟩

/-- Claim C2 evaluated on the code: for a captured `EV_MSC` event (type 4,
neither key/button nor relative motion nor `EV_SYN`), a thread *is* spawned
and the event is appended to the buffer, but no delay is ever assigned
(`assign_delay` yields `none`, the uninitialized `malloc`ed field) — not the
`0` milliseconds the claim states. -/
theorem msc_event_delay_uninitialized :
    assign_delay 4 50 60 = none ∧
      schedules_thread 1 4 = true ∧
      (loop_body 50 60 st0 (.event 4 4 458752 0 0)).buffer =
        [⟨4, 4, 458752, none, 0⟩] := by
  refine ⟨by decide, by decide, by decide⟩

/-- One event written to the virtual uinput device by
`libevdev_uinput_write_event`. -/
structure uinput_emission where
  type : Int
  code : Int
  value : Int
deriving DecidableEq

/-- The timer-task body `invoke_delayed_evdev_event` (`main.c` lines
226–248): sleep `delay` milliseconds, then write the carrier event and
immediately afterwards a fresh `EV_SYN`/`SYN_REPORT` marker to the virtual
device (the marker write is issued even if the carrier write failed; a failed
carrier write is only logged).  Returns the milliseconds slept and the
sequence of attempted writes. -/
def invoke_delayed_evdev_event (e : delayed_event) :
    Int × List uinput_emission :=
  (e.delay, [⟨e.type, e.code, e.value⟩, ⟨EV_SYN, SYN_REPORT, 0⟩])

/-- Claim C10: a captured `EV_SYN` marker never spawns a timer task (so source
markers are never forwarded), and every timer task, after sleeping its delay,
writes exactly two events: the carrier first, immediately followed by one
freshly generated `EV_SYN`/`SYN_REPORT` marker whose payload is independent of
the captured stream. -/
theorem syn_suppressed_and_regenerated (err : Int) (e : delayed_event) :
    schedules_thread err EV_SYN = false ∧
      (invoke_delayed_evdev_event e).1 = e.delay ∧
      (invoke_delayed_evdev_event e).2.length = 2 ∧
      (invoke_delayed_evdev_event e).2.get? 0 = some ⟨e.type, e.code, e.value⟩ ∧
      (invoke_delayed_evdev_event e).2.get? 1 = some ⟨EV_SYN, SYN_REPORT, 0⟩ := by
  refine ⟨?_, rfl, rfl, rfl, rfl⟩
  simp [schedules_thread, EV_SYN]

end DelayDaemon
